import Mathlib

/-!
Shallow embedding of the numeric core of `helper_functions.py` from the
pressureclamp repository, together with theorems settling the frozen claims.

A pandas dataframe holding sweep data is modelled as a list of rows; each row
carries the columns the numeric core reads (`ti`, `i`, `p`, `sweep`).  Python
floats are modelled as rationals, fallible pandas/numpy operations return
`Option`, and the in-place column assignment performed by `baseline_subtract`
is modelled by an explicit "state of the caller's dataframe after the call"
definition.
-/

namespace Pclamp

/-- A row of the sweep dataframe: time `ti`, current `i`, pressure `p` and the
sweep identifier.  These are the columns read by the numeric core. -/
structure Row where
  ti : ℚ
  i : ℚ
  p : ℚ
  sweep : Int
deriving DecidableEq, Repr

/-- A dataframe is a list of rows; row order models the pandas positional
index. -/
abbrev DF := List Row

/-- Pandas `Series.mean`: sum divided by length. -/
def mean (l : List ℚ) : ℚ := l.sum / (l.length : ℚ)

/-- Sort a list of rationals ascending (pandas sorts before taking a median). -/
def sortRats (l : List ℚ) : List ℚ := l.insertionSort (· ≤ ·)

/-- Pandas `Series.median`: middle element of the sorted values, or the average
of the two middle elements for an even count. -/
def median (l : List ℚ) : ℚ :=
  let s := sortRats l
  let n := s.length
  if n % 2 = 1 then s.getD (n / 2) 0
  else (s.getD (n / 2 - 1) 0 + s.getD (n / 2) 0) / 2

/-- `np.max` over a series: `none` on an empty series (numpy raises), otherwise
the greatest element. -/
def npMax : List ℚ → Option ℚ
  | [] => none
  | x :: xs => some (xs.foldl max x)

/-- `np.min` over a series: `none` on an empty series (numpy raises), otherwise
the least element. -/
def npMin : List ℚ → Option ℚ
  | [] => none
  | x :: xs => some (xs.foldl min x)

/-- The query `ti >= @window[0] and ti < @window[1]` used verbatim by
`baseline_subtract` (line 208), `sweep_summary` (line 231) and
`isolate_opening` (line 355). -/
def queryWindow (df : DF) (w0 w1 : ℚ) : DF :=
  df.filter (fun r => decide (w0 ≤ r.ti) && decide (r.ti < w1))

/-- The rows of one `groupby('sweep')` group: rows whose sweep equals `s`,
in dataframe order. -/
def groupRows (df : DF) (s : Int) : DF :=
  df.filter (fun r => decide (r.sweep = s))

/-- The group keys of `df.groupby('sweep')`: the distinct sweep values in
ascending order (pandas sorts group keys). -/
def sweepNames (df : DF) : List Int :=
  ((df.map (·.sweep)).dedup).insertionSort (· ≤ ·)

/-- `baseline_subtract(df, window)` (lines 194-216).  Per sweep, the mean of
`i` over the rows inside the window is computed (`baselines`); looking up a
sweep with no row in the window raises a `KeyError`, modelled by `none`.  The
per-group baseline-subtracted traces are concatenated in ascending-sweep-key
order (`flatList`) and written into the `i` column positionally
(`df['i'] = flatList`). -/
def baseline_subtract (df : DF) (w0 w1 : ℚ) : Option DF :=
  match (sweepNames df).mapM (fun s =>
      let wg := (queryWindow df w0 w1).filter (fun r => decide (r.sweep = s))
      if wg.isEmpty then none
      else some ((groupRows df s).map (fun r => r.i - mean (wg.map (·.i))))) with
  | none => none
  | some chunks => some (List.zipWith (fun r v => { r with i := v }) df chunks.flatten)

/-- The caller's dataframe after `baseline_subtract(df, window)` returns: the
source assigns `df['i'] = flatList` in place, so on success the caller's
object holds the subtracted trace; if the `KeyError` fires first the
assignment never runs and the caller's dataframe is untouched. -/
def baselineSubtractInputAfter (df : DF) (w0 w1 : ℚ) : DF :=
  (baseline_subtract df w0 w1).getD df

/-- `isolate_opening(df, sweepnum, window)` (lines 353-356): first the query
`sweep == @sweepnum`, then the half-open window query on `ti`. -/
def isolate_opening (df : DF) (sweepnum : Int) (w0 w1 : ℚ) : DF :=
  queryWindow (df.filter (fun r => decide (r.sweep = sweepnum))) w0 w1

/-- The series `grp['i'][grp['ti'] == 250.0]` for the group of sweep `s` of the
full dataframe (line 236): the `i` values of the rows of sweep `s` whose time
is exactly 250.0. -/
def thalfList (df : DF) (s : Int) : List ℚ :=
  ((groupRows df s).filter (fun r => decide (r.ti = 250))).map (·.i)

/-- One iteration of the `i_thalf` loop (lines 235-236): the scalar assignment
`i_thalf[i-1] = grp['i'][grp['ti'] == 250.0]` succeeds only when the selected
series has exactly one element (numpy broadcasts a size-one array, and raises
a `ValueError` otherwise) and when the numpy index `i-1` (negative values wrap
from the end) lies inside the length-`L` array (else `IndexError`). -/
def thalfStep (df : DF) (L : Nat) (acc : List ℚ) (s : Int) : Option (List ℚ) :=
  match thalfList df s with
  | [v] =>
    let idx : Int := if s - 1 < 0 then (L : Int) + (s - 1) else s - 1
    if 0 ≤ idx ∧ idx < (L : Int) then some (acc.set idx.toNat v) else none
  | _ => none

/-- The `i_thalf` array built by lines 234-236: `np.zeros(len(groups))` (where
`groups` are the groups of the windowed subset, giving the length `L`) written
by one loop iteration per sweep of the full dataframe, in ascending sweep
order.  `none` models the loop raising. -/
def computeIThalf (df : DF) (L : Nat) : Option (List ℚ) :=
  (sweepNames df).foldlM (thalfStep df L) (List.replicate L 0)

/-- A row of the summary dataframe built by the `'Mean'` branch of
`sweep_summary` (lines 240-249); the dataframe index is the sweep key. -/
structure MeanRow where
  sweep : Int
  pressure : ℚ
  mean_i : ℚ
  mean_norm_i : ℚ
  stdev_i : ℚ
deriving DecidableEq, Repr

/-- A row of the summary dataframe built by the `'Min'` branch of
`sweep_summary` (lines 251-261). -/
structure MinRow where
  sweep : Int
  pressure : ℚ
  min_i : ℚ
  min_norm_i : ℚ
  i_thalf : ℚ
  inactivation : ℚ
deriving DecidableEq, Repr

/-- A row of the summary dataframe built by the `else` (max) branch of
`sweep_summary` (lines 262-270). -/
structure MaxRow where
  sweep : Int
  pressure : ℚ
  max_i : ℚ
  max_norm_i : ℚ
deriving DecidableEq, Repr

/-- The summary dataframe returned by `sweep_summary`: its column set depends
on the branch taken. -/
inductive Summary where
  | meanS : List MeanRow → Summary
  | minS : List MinRow → Summary
  | maxS : List MaxRow → Summary
deriving DecidableEq, Repr

/-- The sample variance with denominator `n - 1`, so that the abstract square
root applied to it models `Series.std()` (pandas default `ddof=1`). -/
def sampleVar (l : List ℚ) : ℚ :=
  (l.map (fun x => (x - mean l) ^ 2)).sum / ((l.length - 1 : ℕ) : ℚ)

/-- The `'Mean'` branch (lines 240-249).  `sqrtFn` abstracts the real square
root inside `Series.std()`.  `np.max` over the per-sweep means raises on an
empty frame, modelled by `none`. -/
def meanBranch (subset : DF) (sqrtFn : ℚ → ℚ) : Option Summary :=
  let ns := sweepNames subset
  let iMean := fun s => mean ((groupRows subset s).map (·.i))
  match npMax (ns.map (fun s => |iMean s|)) with
  | none => none
  | some m => some (Summary.meanS (ns.map (fun s =>
      { sweep := s
        pressure := |median ((groupRows subset s).map (·.p))|
        mean_i := iMean s
        mean_norm_i := |iMean s| / m
        stdev_i := sqrtFn (sampleVar ((groupRows subset s).map (·.i))) })))

/-- Pandas `GroupBy.min` over one (nonempty) group. -/
def seriesMin (l : List ℚ) : ℚ := l.foldl min (l.headD 0)

/-- Pandas `GroupBy.max` over one (nonempty) group. -/
def seriesMax (l : List ℚ) : ℚ := l.foldl max (l.headD 0)

/-- The `'Min'` branch (lines 251-261).  The bare numpy array `i_thalf` is
aligned positionally with the sweep-indexed series it is framed with, and
`inactivation = i_thalf / iMin` also divides positionally.  `np.min(iMin)`
raises on an empty frame, modelled by `none`. -/
def minBranch (subset : DF) (thalf : List ℚ) : Option Summary :=
  let ns := sweepNames subset
  let iMin := fun s => seriesMin ((groupRows subset s).map (·.i))
  match npMin (ns.map iMin) with
  | none => none
  | some m => some (Summary.minS (ns.enum.map (fun ks =>
      { sweep := ks.2
        pressure := |median ((groupRows subset ks.2).map (·.p))|
        min_i := iMin ks.2
        min_norm_i := iMin ks.2 / m
        i_thalf := thalf.getD ks.1 0
        inactivation := thalf.getD ks.1 0 / iMin ks.2 })))

/-- The `else` (max) branch (lines 262-270): any `param` other than `'None'`,
`'Mean'` and `'Min'` lands here.  `np.max(iMax)` raises on an empty frame,
modelled by `none`. -/
def maxBranch (subset : DF) : Option Summary :=
  let ns := sweepNames subset
  let iMax := fun s => seriesMax ((groupRows subset s).map (·.i))
  match npMax (ns.map iMax) with
  | none => none
  | some m => some (Summary.maxS (ns.map (fun s =>
      { sweep := s
        pressure := |median ((groupRows subset s).map (·.p))|
        max_i := iMax s
        max_norm_i := iMax s / m })))

/-- `sweep_summary(df, window, param)` (lines 218-271).  The subset is the
half-open window query; `i_thalf` is computed from the full dataframe before
the `param` dispatch, so a failure there raises for every `param` (outer
`none`).  `param == 'None'` returns Python `None` (`some none`); `'Mean'` and
`'Min'` take their branches and anything else takes the max branch.  `sqrtFn`
abstracts the square root used by `Series.std()`. -/
def sweep_summary (df : DF) (w0 w1 : ℚ) (param : String) (sqrtFn : ℚ → ℚ) :
    Option (Option Summary) :=
  let subsetDf := queryWindow df w0 w1
  let ns := sweepNames subsetDf
  match computeIThalf df ns.length with
  | none => none
  | some thalf =>
    if param = "None" then some none
    else if param = "Mean" then (meanBranch subsetDf sqrtFn).map some
    else if param = "Min" then (minBranch subsetDf thalf).map some
    else (maxBranch subsetDf).map some

/-- The caller's dataframe after `sweep_summary` returns: the source never
assigns into `df` (its queries build copies), so the input is unchanged. -/
def sweepSummaryInputAfter (df : DF) (w0 w1 : ℚ) (param : String)
    (sqrtFn : ℚ → ℚ) : DF :=
  df

/-- The column `summaryDf['pressure']` of a summary dataframe, read off the
branch-specific rows. -/
def summaryPressures : Summary → List ℚ
  | Summary.meanS rs => rs.map (·.pressure)
  | Summary.minS rs => rs.map (·.pressure)
  | Summary.maxS rs => rs.map (·.pressure)

/-- `np.argmax`: index of the first occurrence of the greatest element.
`argmaxFrom k best bv l` scans `l` whose head sits at index `k`, with current
best index `best` holding value `bv`. -/
def argmaxFrom : Nat → Nat → ℚ → List ℚ → Nat
  | _, best, _, [] => best
  | k, best, bv, v :: rest =>
    if bv < v then argmaxFrom (k + 1) k v rest else argmaxFrom (k + 1) best bv rest

/-- `np.argmax` over a list; `np.argmax` of an empty array raises, and all
uses below guard emptiness separately, so the empty case is arbitrary. -/
def argmax : List ℚ → Nat
  | [] => 0
  | v :: rest => argmaxFrom 1 0 v rest

/-- The loop of `ngauss_guesses` (lines 359-363): `gloop u0 m` is the state of
the three guess lists after `m` iterations, starting from
`{"p": [1], "u": [u0], "s": [0.5]}`; iteration `i` (zero-based) appends
`0.5 * p[i]`, `-2.2 * (i+1) + u[i]` and `2 * s[i]`. -/
def gloop (u0 : ℚ) : Nat → List ℚ × List ℚ × List ℚ
  | 0 => ([1], [u0], [0.5])
  | m + 1 =>
    let t := gloop u0 m
    (t.1 ++ [0.5 * t.1.getD m 0],
     t.2.1 ++ [-2.2 * ((m : ℚ) + 1) + t.2.1.getD m 0],
     t.2.2 ++ [2 * t.2.2.getD m 0])

/-- `ngauss_guesses(x, y, nGauss)` (lines 358-367): seeds the guesses with
`x[np.argmax(y)]`, then runs the loop `nGauss - 1` times.  `np.argmax` on an
empty `y` and an out-of-range index into `x` both raise, modelled by `none`. -/
def ngauss_guesses (x y : List ℚ) (nGauss : Nat) :
    Option (List ℚ × List ℚ × List ℚ) :=
  if y.isEmpty then none
  else
    match x[argmax y]? with
    | none => none
    | some u0 => some (gloop u0 (nGauss - 1))

/-- The caller's `x` and `y` arrays after `ngauss_guesses` returns: the source
only reads them. -/
def ngaussInputAfter (x y : List ℚ) (nGauss : Nat) : List ℚ × List ℚ :=
  (x, y)

end Pclamp

namespace Pclamp

/-- `sigmoid_fit(p, p50, k)` (lines 311-324): the two-parameter Boltzmann
sigmoid `1 / (1 + exp((p50 - p) / k))` over the reals. -/
noncomputable def sigmoid_fit (p p50 k : ℝ) : ℝ :=
  1 / (1 + Real.exp ((p50 - p) / k))

/-- The caller's abscissa value after `sigmoid_fit` returns: the source is a
single arithmetic expression with no assignment. -/
def sigmoidInputAfter (p p50 k : ℝ) : ℝ :=
  p

end Pclamp

namespace Pclamp

/-- Whether a line matches `re.search(r"[a-z]+", line)` (line 33): it contains
at least one lowercase ASCII letter.  Such lines are header lines. -/
def hasLowerAlpha (s : String) : Bool :=
  s.data.any (fun c => 97 ≤ c.toNat && c.toNat ≤ 122)

/-- Whether a character is stripped by Python's `str.strip()`. -/
def isSpaceChar (c : Char) : Bool :=
  c = ' ' || c = '\t' || c = '\n' || c = '\r'

/-- Python `str.strip()`: drop leading and trailing whitespace. -/
def trimChars (l : List Char) : List Char :=
  ((l.dropWhile isSpaceChar).reverse.dropWhile isSpaceChar).reverse

/-- Split a character list at commas, Python `str.split(",")`. -/
def splitCommaAux : List Char → List Char → List String
  | [], acc => [String.mk acc.reverse]
  | c :: rest, acc =>
    if c = ',' then String.mk acc.reverse :: splitCommaAux rest []
    else splitCommaAux rest (c :: acc)

/-- `rawFile[i].strip().replace(" ", "").split(",")` (line 38) for one line. -/
def processLine (s : String) : List String :=
  splitCommaAux ((trimChars s.data).filter (fun c => !(c = ' '))) []

/-- The `processedFile` of line 38: the data lines (those without lowercase
letters, collected via `lineIndices`), stripped, despaced and comma-split. -/
def processedFile (rawFile : List String) : List (List String) :=
  (rawFile.filter (fun l => !hasLowerAlpha l)).map processLine

/-- `nSweeps = int((len(rawFile) - len(processedFile) - 1) / 2)` (line 41). -/
def nSweeps (rawFile : List String) : Nat :=
  (rawFile.length - (processedFile rawFile).length - 1) / 2

/-- The column-count inference of lines 43-46: five columns when the first
processed line has five fields, else seven. -/
def ncols (rawFile : List String) : Nat :=
  if ((processedFile rawFile).headD []).length = 5 then 5 else 7

/-- The rows surviving `df.apply(pd.to_numeric)` plus `df.dropna(axis=0)`
(lines 48-50): each field is parsed by the abstract cell parser `parseField`
(modelling `pd.to_numeric` on one cell, `none` meaning NaN), and rows with a
NaN are dropped. -/
def keptRows (rawFile : List String) (parseField : String → Option ℚ) :
    List (List ℚ) :=
  (((processedFile rawFile).map (fun fs => fs.map parseField)).filter
      (fun row => row.all (·.isSome))).map (fun row => row.map (·.getD 0))

/-- A row of the dataframe returned by `load_file`: the parsed columns
(`tv`/`v` present only in the seven-column layout) and the sweep label. -/
structure LoadedRow where
  idx : ℚ
  ti : ℚ
  i : ℚ
  tp : ℚ
  p : ℚ
  tv : Option ℚ
  v : Option ℚ
  sweep : Int
deriving DecidableEq, Repr

/-- `load_file(path)` (lines 13-61) on the line list of the file.  After
parsing and `dropna`, line 53 computes `np.repeat(np.arange(nSweeps) + 1,
len(df) / nSweeps)` — a `ZeroDivisionError` when `nSweeps == 0`, and a length
mismatch on the `df['sweep']` assignment when `nSweeps` does not divide the
row count (both modelled by `none`) — and lines 56-59 convert units:
`p /= 0.02`, `ti *= 1000`, `i *= 1e12`, `tp *= 1000`. -/
def load_file (rawFile : List String) (parseField : String → Option ℚ) :
    Option (List LoadedRow) :=
  let rows := keptRows rawFile parseField
  let n := rows.length
  let ns := nSweeps rawFile
  if ns = 0 then none
  else if ns * (n / ns) = n then
    let sweeps := (List.range ns).flatMap (fun k => List.replicate (n / ns) (k + 1))
    some ((rows.zip sweeps).map (fun rs =>
      { idx := rs.1.getD 0 0
        ti := rs.1.getD 1 0 * 1000
        i := rs.1.getD 2 0 * 1e12
        tp := rs.1.getD 3 0 * 1000
        p := rs.1.getD 4 0 / 0.02
        tv := if ncols rawFile = 7 then some (rs.1.getD 5 0) else none
        v := if ncols rawFile = 7 then some (rs.1.getD 6 0) else none
        sweep := (rs.2 : Int) }))
  else none

/-- The caller's line list after `load_file` returns: the source only reads
the file contents. -/
def loadFileInputAfter (rawFile : List String)
    (parseField : String → Option ℚ) : List String :=
  rawFile

/-! ### Lemmas about `gloop` (the `ngauss_guesses` loop) -/

lemma gloop_lengths (u0 : ℚ) (m : Nat) :
    (gloop u0 m).1.length = m + 1 ∧ (gloop u0 m).2.1.length = m + 1 ∧
      (gloop u0 m).2.2.length = m + 1 := by
  induction m with
  | zero => simp [gloop]
  | succ m ih => simp [gloop, ih.1, ih.2.1, ih.2.2]

lemma gloop_head (u0 : ℚ) (m : Nat) :
    (gloop u0 m).1.getD 0 0 = 1 ∧ (gloop u0 m).2.1.getD 0 0 = u0 ∧
      (gloop u0 m).2.2.getD 0 0 = 0.5 := by
  induction m with
  | zero => simp [gloop]
  | succ m ih =>
    have h1 := (gloop_lengths u0 m).1
    have h2 := (gloop_lengths u0 m).2.1
    have h3 := (gloop_lengths u0 m).2.2
    refine ⟨?_, ?_, ?_⟩ <;>
      simp only [gloop] <;>
      rw [List.getD_append _ _ _ _ (by omega)] <;>
      [exact ih.1; exact ih.2.1; exact ih.2.2]

lemma gloop_rec (u0 : ℚ) (m i : Nat) (h : i + 1 ≤ m) :
    (gloop u0 m).1.getD (i + 1) 0 = 0.5 * (gloop u0 m).1.getD i 0 ∧
      (gloop u0 m).2.1.getD (i + 1) 0 =
        -2.2 * ((i : ℚ) + 1) + (gloop u0 m).2.1.getD i 0 ∧
      (gloop u0 m).2.2.getD (i + 1) 0 = 2 * (gloop u0 m).2.2.getD i 0 := by
  induction m with
  | zero => omega
  | succ m ih =>
    have h1 := (gloop_lengths u0 m).1
    have h2 := (gloop_lengths u0 m).2.1
    have h3 := (gloop_lengths u0 m).2.2
    rcases Nat.lt_or_ge (i + 1) (m + 1) with hlt | hge
    · have hi := ih (by omega)
      refine ⟨?_, ?_, ?_⟩ <;>
        simp only [gloop] <;>
        rw [List.getD_append _ _ _ _ (by omega), List.getD_append _ _ _ _ (by omega)] <;>
        [exact hi.1; exact hi.2.1; exact hi.2.2]
    · have him : i = m := by omega
      subst him
      refine ⟨?_, ?_, ?_⟩ <;>
        simp only [gloop] <;>
        rw [List.getD_append_right _ _ _ _ (by omega),
          List.getD_append _ _ _ _ (by omega)] <;>
        simp [h1, h2, h3]

end Pclamp

namespace Pclamp

end Pclamp

namespace Pclamp

/-! ### Claim C6: `ngauss_guesses` initial-guess recurrences -/

/-- C6 (amended): for every `nGauss ≥ 1`, every non-empty `y` and every `x`
long enough for the index `argmax y` (the source reads `x[np.argmax(y)]`, so a
shorter `x` raises an `IndexError`), `ngauss_guesses` returns three arrays of
length `nGauss` whose amplitudes start at 1 and halve, whose means start at
`x[argmax y]` with the `(i+1)`-th mean equal to the `i`-th minus `2.2 * (i+1)`,
and whose sigmas start at 0.5 and double. -/
theorem ngauss_guesses_spec (x y : List ℚ) (n : Nat)
    (hn : 1 ≤ n) (hy : y ≠ []) (hx : argmax y < x.length) :
    ∃ ps us ss, ngauss_guesses x y n = some (ps, us, ss) ∧
      ps.length = n ∧ us.length = n ∧ ss.length = n ∧
      ps.getD 0 0 = 1 ∧ us.getD 0 0 = x.getD (argmax y) 0 ∧ ss.getD 0 0 = 0.5 ∧
      ∀ i, i + 1 < n →
        ps.getD (i + 1) 0 = 0.5 * ps.getD i 0 ∧
        us.getD (i + 1) 0 = us.getD i 0 - 2.2 * ((i : ℚ) + 1) ∧
        ss.getD (i + 1) 0 = 2 * ss.getD i 0 := by
  have hu0 : x[argmax y]? = some (x.getD (argmax y) 0) := by
    rw [List.getElem?_eq_getElem hx, List.getD_eq_getElem x 0 hx]
  have hye : y.isEmpty = false := by
    cases y with
    | nil => exact absurd rfl hy
    | cons a t => rfl
  refine ⟨(gloop (x.getD (argmax y) 0) (n - 1)).1,
    (gloop (x.getD (argmax y) 0) (n - 1)).2.1,
    (gloop (x.getD (argmax y) 0) (n - 1)).2.2, ?_, ?_, ?_, ?_, ?_, ?_, ?_, ?_⟩
  · simp only [ngauss_guesses, hye, Bool.false_eq_true, if_false, hu0]
  · rw [(gloop_lengths _ _).1]; omega
  · rw [(gloop_lengths _ _).2.1]; omega
  · rw [(gloop_lengths _ _).2.2]; omega
  · exact (gloop_head _ _).1
  · exact (gloop_head _ _).2.1
  · exact (gloop_head _ _).2.2
  · intro i hi
    have hr := gloop_rec (x.getD (argmax y) 0) (n - 1) i (by omega)
    exact ⟨hr.1, by rw [hr.2.1]; ring, hr.2.2⟩

/-- Witness for C6 at `x = [3, 7]`, `y = [1, 5]`, `nGauss = 2`. -/
theorem ngauss_guesses_spec_witness :
    1 ≤ 2 ∧ ([(1 : ℚ), 5] ≠ []) ∧ argmax [(1 : ℚ), 5] < ([(3 : ℚ), 7]).length ∧
      (∃ ps us ss, ngauss_guesses [(3 : ℚ), 7] [(1 : ℚ), 5] 2 = some (ps, us, ss) ∧
        ps.length = 2 ∧ us.length = 2 ∧ ss.length = 2 ∧
        ps.getD 0 0 = 1 ∧ us.getD 0 0 = ([(3 : ℚ), 7]).getD (argmax [(1 : ℚ), 5]) 0 ∧
        ss.getD 0 0 = 0.5 ∧
        ∀ i, i + 1 < 2 →
          ps.getD (i + 1) 0 = 0.5 * ps.getD i 0 ∧
          us.getD (i + 1) 0 = us.getD i 0 - 2.2 * ((i : ℚ) + 1) ∧
          ss.getD (i + 1) 0 = 2 * ss.getD i 0) :=
  ⟨by decide, by decide, by decide,
    ngauss_guesses_spec [3, 7] [1, 5] 2 (by decide) (by decide) (by decide)⟩

/-- Counterexample to C6 as stated: it quantifies over every `x`, but with
`x = []` and the non-empty `y = [1]` the source raises an `IndexError` at
`x[np.argmax(y)]` (modelled by `none`) instead of returning three length-1
arrays. -/
theorem ngauss_guesses_cex : ngauss_guesses ([] : List ℚ) [1] 1 = none := by
  decide

/-! ### Claim C7: shape of the fitted sigmoid -/

/-- C7: for every `p50` and every `k > 0`, the Boltzmann sigmoid
`sigmoid_fit(p, p50, k)` is strictly increasing in `p`, takes values strictly
between 0 and 1, and equals `1/2` exactly at `p = p50`. -/
theorem sigmoid_fit_shape (p50 k : ℝ) (hk : 0 < k) :
    (∀ p q, p < q → sigmoid_fit p p50 k < sigmoid_fit q p50 k) ∧
      (∀ p, 0 < sigmoid_fit p p50 k ∧ sigmoid_fit p p50 k < 1) ∧
      (∀ p, sigmoid_fit p p50 k = 1 / 2 ↔ p = p50) := by
  have hk0 : k ≠ 0 := ne_of_gt hk
  refine ⟨?_, ?_, ?_⟩
  · intro p q hpq
    have h1 : (p50 - q) / k < (p50 - p) / k :=
      (div_lt_div_iff_of_pos_right hk).mpr (by linarith)
    have h2 : 1 + Real.exp ((p50 - q) / k) < 1 + Real.exp ((p50 - p) / k) := by
      have := Real.exp_lt_exp.mpr h1
      linarith
    have hpos : 0 < 1 + Real.exp ((p50 - q) / k) := by positivity
    exact one_div_lt_one_div_of_lt hpos h2
  · intro p
    have he := Real.exp_pos ((p50 - p) / k)
    constructor
    · have : 0 < 1 + Real.exp ((p50 - p) / k) := by linarith
      exact one_div_pos.mpr this
    · rw [sigmoid_fit, div_lt_one (by linarith)]
      linarith
  · intro p
    rw [sigmoid_fit,
      div_eq_div_iff (by positivity) (by norm_num : (2 : ℝ) ≠ 0)]
    constructor
    · intro h
      have h1 : Real.exp ((p50 - p) / k) = 1 := by linarith
      have h0 := (Real.exp_eq_one_iff _).mp h1
      rcases div_eq_zero_iff.mp h0 with hz | hz
      · linarith
      · exact absurd hz hk0
    · intro h
      subst h
      simp [Real.exp_zero]
      ring

/-- Witness for C7 at `p50 = 0`, `k = 1`. -/
theorem sigmoid_fit_shape_witness :
    (0 : ℝ) < 1 ∧
      ((∀ p q : ℝ, p < q → sigmoid_fit p 0 1 < sigmoid_fit q 0 1) ∧
        (∀ p : ℝ, 0 < sigmoid_fit p 0 1 ∧ sigmoid_fit p 0 1 < 1) ∧
        (∀ p : ℝ, sigmoid_fit p 0 1 = 1 / 2 ↔ p = 0)) :=
  ⟨one_pos, sigmoid_fit_shape 0 1 one_pos⟩

/-! ### Claim C8: every windowed selection is half-open -/

/-- C8: the window query shared by `baseline_subtract` (line 208) and
`sweep_summary` (line 231), and the one in `isolate_opening` (line 355),
select exactly the rows with `w0 ≤ ti < w1`; a row sitting exactly at the end
coordinate is excluded and one exactly at the start coordinate is included. -/
theorem half_open_windows :
    (∀ (df : DF) (w0 w1 : ℚ) (r : Row),
        r ∈ queryWindow df w0 w1 ↔ r ∈ df ∧ w0 ≤ r.ti ∧ r.ti < w1) ∧
      (∀ (df : DF) (s : Int) (w0 w1 : ℚ) (r : Row),
        r ∈ isolate_opening df s w0 w1 ↔
          (r ∈ df ∧ r.sweep = s) ∧ w0 ≤ r.ti ∧ r.ti < w1) ∧
      (∀ (df : DF) (w0 w1 : ℚ) (r : Row),
        r ∈ df → r.ti = w1 → r ∉ queryWindow df w0 w1) ∧
      (∀ (df : DF) (w0 w1 : ℚ) (r : Row),
        r ∈ df → r.ti = w0 → w0 < w1 → r ∈ queryWindow df w0 w1) := by
  have hq : ∀ (df : DF) (w0 w1 : ℚ) (r : Row),
      r ∈ queryWindow df w0 w1 ↔ r ∈ df ∧ w0 ≤ r.ti ∧ r.ti < w1 := by
    intro df w0 w1 r
    simp [queryWindow, List.mem_filter]
  refine ⟨hq, ?_, ?_, ?_⟩
  · intro df s w0 w1 r
    rw [isolate_opening, hq]
    simp [List.mem_filter, and_assoc]
  · intro df w0 w1 r _ hti hmem
    rcases (hq df w0 w1 r).mp hmem with ⟨-, -, hlt⟩
    rw [hti] at hlt
    exact lt_irrefl w1 hlt
  · intro df w0 w1 r hr hti hlt
    exact (hq df w0 w1 r).mpr ⟨hr, le_of_eq hti.symm, hti ▸ hlt⟩

/-- Witness for C8: the boundary conjuncts applied to a one-row dataframe at
the window edges. -/
theorem half_open_windows_witness :
    ((⟨0, 1, 0, 1⟩ : Row) ∈ queryWindow [⟨0, 1, 0, 1⟩] 0 1) ∧
      ((⟨1, 1, 0, 1⟩ : Row) ∉ queryWindow [⟨1, 1, 0, 1⟩] 0 1) :=
  ⟨half_open_windows.2.2.2 [⟨0, 1, 0, 1⟩] 0 1 ⟨0, 1, 0, 1⟩ (by simp) rfl
      (by norm_num),
    half_open_windows.2.2.1 [⟨1, 1, 0, 1⟩] 0 1 ⟨1, 1, 0, 1⟩ (by simp) rfl⟩

/-! ### Lemmas for `load_file` -/

lemma length_filter_not_add {α : Type} (p : α → Bool) (l : List α) :
    (l.filter (fun a => !p a)).length + (l.filter p).length = l.length := by
  induction l with
  | nil => rfl
  | cons a t ih =>
    by_cases h : p a <;> simp [List.filter_cons, h, ← ih] <;> omega

lemma length_flatMap_replicate {α β : Type} (l : List α) (c : Nat) (f : α → β) :
    (l.flatMap (fun k => List.replicate c (f k))).length = l.length * c := by
  induction l with
  | nil => simp
  | cons a t ih =>
    simp only [List.flatMap_cons, List.length_append, List.length_replicate, ih,
      List.length_cons]
    ring

lemma map_zip_snd {α β γ : Type} (g : β → γ) :
    ∀ (l1 : List α) (l2 : List β), l1.length = l2.length →
      (l1.zip l2).map (fun x => g x.2) = l2.map g
  | [], [], _ => rfl
  | [], _ :: _, h => by simp at h
  | _ :: _, [], h => by simp at h
  | a :: t1, b :: t2, h => by
    simp only [List.zip_cons_cons, List.map_cons]
    rw [map_zip_snd g t1 t2 (by simpa using h)]

lemma map_flatMap_replicate {α β γ : Type} (l : List α) (c : Nat)
    (f : α → β) (g : β → γ) :
    (l.flatMap (fun k => List.replicate c (f k))).map g =
      l.flatMap (fun k => List.replicate c (g (f k))) := by
  induction l with
  | nil => rfl
  | cons a t ih => simp [List.flatMap_cons, ih]

lemma load_file_some (rawFile : List String) (parseField : String → Option ℚ)
    (h0 : 0 < nSweeps rawFile)
    (hdvd : nSweeps rawFile ∣ (keptRows rawFile parseField).length) :
    load_file rawFile parseField = some
      (((keptRows rawFile parseField).zip
          ((List.range (nSweeps rawFile)).flatMap (fun k =>
            List.replicate
              ((keptRows rawFile parseField).length / nSweeps rawFile) (k + 1)))).map
        (fun rs =>
          { idx := rs.1.getD 0 0
            ti := rs.1.getD 1 0 * 1000
            i := rs.1.getD 2 0 * 1e12
            tp := rs.1.getD 3 0 * 1000
            p := rs.1.getD 4 0 / 0.02
            tv := if ncols rawFile = 7 then some (rs.1.getD 5 0) else none
            v := if ncols rawFile = 7 then some (rs.1.getD 6 0) else none
            sweep := (rs.2 : Int) })) := by
  rw [load_file]
  rw [if_neg (by omega), if_pos (Nat.mul_div_cancel' hdvd)]

lemma load_file_labels_length (rawFile : List String)
    (parseField : String → Option ℚ)
    (hdvd : nSweeps rawFile ∣ (keptRows rawFile parseField).length) :
    ((List.range (nSweeps rawFile)).flatMap (fun k =>
        List.replicate
          ((keptRows rawFile parseField).length / nSweeps rawFile) (k + 1))).length =
      (keptRows rawFile parseField).length := by
  rw [length_flatMap_replicate, List.length_range, Nat.mul_div_cancel' hdvd]

/-! ### Claim C4: header stripping, sweep count and sweep labels -/

/-- C4: on a well-formed file — one with at least one sweep inferred and with
the surviving row count divisible by the sweep count — `load_file` keeps
exactly the lines with no lowercase letter, computes the sweep count as
`(H - 1) / 2` where `H` counts the header lines (the ones with a lowercase
letter), and labels the kept rows `1 .. nSweeps` in contiguous equal-length
blocks. -/
theorem load_file_sweep_labels (rawFile : List String)
    (parseField : String → Option ℚ)
    (h0 : 0 < nSweeps rawFile)
    (hdvd : nSweeps rawFile ∣ (keptRows rawFile parseField).length) :
    nSweeps rawFile = ((rawFile.filter (fun l => hasLowerAlpha l)).length - 1) / 2
    ∧ processedFile rawFile =
        (rawFile.filter (fun l => !hasLowerAlpha l)).map processLine
    ∧ ∃ out, load_file rawFile parseField = some out
        ∧ out.length = (keptRows rawFile parseField).length
        ∧ out.map (·.sweep) =
            (List.range (nSweeps rawFile)).flatMap (fun k =>
              List.replicate ((keptRows rawFile parseField).length / nSweeps rawFile)
                ((k : Int) + 1)) := by
  set rows := keptRows rawFile parseField with hrows
  set n := rows.length with hn
  set ns := nSweeps rawFile with hns
  have hhead : ns = ((rawFile.filter (fun l => hasLowerAlpha l)).length - 1) / 2 := by
    rw [hns, nSweeps]
    have hlen : (processedFile rawFile).length =
        (rawFile.filter (fun l => !hasLowerAlpha l)).length := by
      rw [processedFile, List.length_map]
    rw [hlen]
    have h2 : (rawFile.filter (fun l => !hasLowerAlpha l)).length +
        (rawFile.filter (fun l => hasLowerAlpha l)).length = rawFile.length :=
      length_filter_not_add (fun l => hasLowerAlpha l) rawFile
    omega
  have hsw : ((List.range ns).flatMap (fun k => List.replicate (n / ns) (k + 1))).length
      = n := load_file_labels_length rawFile parseField hdvd
  refine ⟨hhead, rfl, ?_⟩
  have hload := load_file_some rawFile parseField h0 hdvd
  refine ⟨_, hload, ?_, ?_⟩
  · rw [List.length_map, List.length_zip, hsw, hn, min_self]
  · rw [List.map_map]
    have : ((·.sweep) ∘ (fun rs : List ℚ × Nat =>
        ({ idx := rs.1.getD 0 0
           ti := rs.1.getD 1 0 * 1000
           i := rs.1.getD 2 0 * 1e12
           tp := rs.1.getD 3 0 * 1000
           p := rs.1.getD 4 0 / 0.02
           tv := if ncols rawFile = 7 then some (rs.1.getD 5 0) else none
           v := if ncols rawFile = 7 then some (rs.1.getD 6 0) else none
           sweep := (rs.2 : Int) } : LoadedRow))) =
        (fun rs : List ℚ × Nat => ((rs.2 : Nat) : Int)) := rfl
    rw [this, map_zip_snd _ rows _ (by rw [hsw]), map_flatMap_replicate]
    simp [Int.natCast_add]

/-- Sample input for the `load_file` witnesses: three header lines (each has a
lowercase letter), two data lines of five fields, hence one sweep. -/
def rawFileW : List String :=
  ["header line", "a", "b", "1,2,3,4,5", "1, 2,3,4,5"]

/-- Sample cell parser for the `load_file` witnesses: every cell parses to 1. -/
def parseOne : String → Option ℚ := fun _ => some 1

/-- Witness for C4 at the sample file. -/
theorem load_file_sweep_labels_witness :
    0 < nSweeps rawFileW ∧
      nSweeps rawFileW ∣ (keptRows rawFileW parseOne).length ∧
      (nSweeps rawFileW =
          ((rawFileW.filter (fun l => hasLowerAlpha l)).length - 1) / 2
        ∧ processedFile rawFileW =
            (rawFileW.filter (fun l => !hasLowerAlpha l)).map processLine
        ∧ ∃ out, load_file rawFileW parseOne = some out
            ∧ out.length = (keptRows rawFileW parseOne).length
            ∧ out.map (·.sweep) =
                (List.range (nSweeps rawFileW)).flatMap (fun k =>
                  List.replicate
                    ((keptRows rawFileW parseOne).length / nSweeps rawFileW)
                    ((k : Int) + 1))) :=
  ⟨by decide, by decide,
    load_file_sweep_labels rawFileW parseOne (by decide) (by decide)⟩

/-! ### Claim C5: unit conversions in `load_file` -/

/-- C5: every row of the table emitted by `load_file` carries exactly these
unit conversions of the parsed cell values: `p` is divided by 0.02, `ti` and
`tp` are multiplied by 1000, `i` is multiplied by 1e12, and the index column
(and `tv`, `v` when the seven-column layout is detected) are unconverted. -/
theorem load_file_units (rawFile : List String) (parseField : String → Option ℚ)
    (k : Nat) (fs : List ℚ) (r : LoadedRow) (out : List LoadedRow)
    (h0 : 0 < nSweeps rawFile)
    (hdvd : nSweeps rawFile ∣ (keptRows rawFile parseField).length)
    (hout : load_file rawFile parseField = some out)
    (hfs : (keptRows rawFile parseField)[k]? = some fs)
    (hr : out[k]? = some r) :
    r.idx = fs.getD 0 0 ∧ r.ti = fs.getD 1 0 * 1000 ∧ r.i = fs.getD 2 0 * 1e12 ∧
      r.tp = fs.getD 3 0 * 1000 ∧ r.p = fs.getD 4 0 / 0.02 ∧
      r.tv = (if ncols rawFile = 7 then some (fs.getD 5 0) else none) ∧
      r.v = (if ncols rawFile = 7 then some (fs.getD 6 0) else none) := by
  rw [load_file_some rawFile parseField h0 hdvd, Option.some_inj] at hout
  subst hout
  have hk : k < (keptRows rawFile parseField).length :=
    (List.getElem?_eq_some.mp hfs).1
  have hks : k < ((List.range (nSweeps rawFile)).flatMap (fun j =>
      List.replicate
        ((keptRows rawFile parseField).length / nSweeps rawFile) (j + 1))).length := by
    rw [load_file_labels_length rawFile parseField hdvd]
    exact hk
  obtain ⟨sk, hsk⟩ : ∃ sk, ((List.range (nSweeps rawFile)).flatMap (fun j =>
      List.replicate
        ((keptRows rawFile parseField).length / nSweeps rawFile) (j + 1)))[k]? =
        some sk :=
    ⟨_, List.getElem?_eq_getElem hks⟩
  have hz : ((keptRows rawFile parseField).zip
      ((List.range (nSweeps rawFile)).flatMap (fun j =>
        List.replicate
          ((keptRows rawFile parseField).length / nSweeps rawFile) (j + 1))))[k]? =
        some (fs, sk) :=
    List.getElem?_zip_eq_some.mpr ⟨hfs, hsk⟩
  rw [List.getElem?_map, hz, Option.map_some', Option.some_inj] at hr
  subst hr
  exact ⟨rfl, rfl, rfl, rfl, rfl, rfl, rfl⟩

/-- Witness for C5 at the sample file, first row. -/
theorem load_file_units_witness :
    ∃ out fs r,
      0 < nSweeps rawFileW ∧
        nSweeps rawFileW ∣ (keptRows rawFileW parseOne).length ∧
        load_file rawFileW parseOne = some out ∧
        (keptRows rawFileW parseOne)[0]? = some fs ∧
        out[0]? = some r ∧
        (r.idx = fs.getD 0 0 ∧ r.ti = fs.getD 1 0 * 1000 ∧
          r.i = fs.getD 2 0 * (1e12 : ℚ) ∧ r.tp = fs.getD 3 0 * 1000 ∧
          r.p = fs.getD 4 0 / (0.02 : ℚ) ∧
          r.tv = (if ncols rawFileW = 7 then some (fs.getD 5 0) else none) ∧
          r.v = (if ncols rawFileW = 7 then some (fs.getD 6 0) else none)) := by
  have h1 : (0 : Nat) < nSweeps rawFileW := by decide
  have h2 : nSweeps rawFileW ∣ (keptRows rawFileW parseOne).length := by decide
  have hM := load_file_some rawFileW parseOne h1 h2
  have hfs : (keptRows rawFileW parseOne)[0]? = some [1, 1, 1, 1, 1] := by decide
  have hsk : ((List.range (nSweeps rawFileW)).flatMap (fun j =>
      List.replicate ((keptRows rawFileW parseOne).length / nSweeps rawFileW)
        (j + 1)))[0]? = some 1 := by decide
  have hz : ((keptRows rawFileW parseOne).zip
      ((List.range (nSweeps rawFileW)).flatMap (fun j =>
        List.replicate ((keptRows rawFileW parseOne).length / nSweeps rawFileW)
          (j + 1))))[0]? = some ([1, 1, 1, 1, 1], 1) :=
    List.getElem?_zip_eq_some.mpr ⟨hfs, hsk⟩
  have hr0 : ∀ out, load_file rawFileW parseOne = some out →
      out[0]? = some ⟨1, 1 * 1000, 1 * 1e12, 1 * 1000, 1 / 0.02, none, none, 1⟩ := by
    intro out hout
    rw [hM, Option.some_inj] at hout
    subst hout
    rw [List.getElem?_map, hz, Option.map_some']
    rfl
  exact ⟨_, [1, 1, 1, 1, 1], _, h1, h2, hM, hfs, hr0 _ hM,
    load_file_units rawFileW parseOne 0 _ _ _ h1 h2 hM hfs (hr0 _ hM)⟩

/-! ### Lemmas about `sweepNames` -/

lemma mem_sweepNames {df : DF} {r : Row} (h : r ∈ df) : r.sweep ∈ sweepNames df := by
  rw [sweepNames, List.mem_insertionSort, List.mem_dedup]
  exact List.mem_map_of_mem _ h

lemma sweepNames_ne_nil {df : DF} (h : df ≠ []) : sweepNames df ≠ [] := by
  cases df with
  | nil => exact absurd rfl h
  | cons r t =>
    exact List.ne_nil_of_mem (mem_sweepNames (List.mem_cons_self r t))

lemma sweepNames_pairwise_lt (df : DF) : (sweepNames df).Pairwise (· < ·) := by
  have hs : (sweepNames df).Pairwise (· ≤ ·) := by
    rw [sweepNames]
    exact List.sorted_insertionSort (· ≤ ·) ((df.map (fun r : Row => r.sweep)).dedup)
  have hnd : (sweepNames df).Nodup := by
    rw [sweepNames]
    exact ((List.perm_insertionSort (· ≤ ·)
        ((df.map (fun r : Row => r.sweep)).dedup)).nodup_iff).mpr
      (List.nodup_dedup _)
  exact (hs.and hnd).imp (fun h => lt_of_le_of_ne h.1 h.2)

/-! ### Lemmas about the `i_thalf` loop -/

lemma length_eq_one_headD (l : List ℚ) (h : l.length = 1) : l = [l.headD 0] := by
  cases l with
  | nil => simp at h
  | cons a t =>
    cases t with
    | nil => rfl
    | cons b u => simp at h

lemma thalfStep_nat (df : DF) (L : Nat) (k : Nat) (acc : List ℚ)
    (h1 : (thalfList df ((k : Int) + 1)).length = 1) (h2 : k < L) :
    thalfStep df L acc ((k : Int) + 1) =
      some (acc.set k ((thalfList df ((k : Int) + 1)).headD 0)) := by
  have hl := length_eq_one_headD _ h1
  unfold thalfStep
  rw [hl]
  have hneg : ¬((k : Int) + 1 - 1 < 0) := by omega
  simp only [hneg, if_false]
  rw [if_pos (by constructor <;> omega)]
  have : ((k : Int) + 1 - 1).toNat = k := by omega
  rw [this]
  rfl

lemma thalfStep_some_len (df : DF) (L : Nat) (acc : List ℚ) (s : Int)
    (x : List ℚ) (h : thalfStep df L acc s = some x) :
    (thalfList df s).length = 1 := by
  unfold thalfStep at h
  rcases hl : thalfList df s with - | ⟨v, - | ⟨w, t⟩⟩ <;> rw [hl] at h
  · simp at h
  · rfl
  · simp at h

lemma foldlM_thalf (df : DF) (L : Nat) :
    ∀ (ks : List Nat) (acc : List ℚ),
      (∀ k ∈ ks, k < L ∧ (thalfList df ((k : Int) + 1)).length = 1) →
      (ks.map (fun k : Nat => (k : Int) + 1)).foldlM (thalfStep df L) acc =
        some (ks.foldl
          (fun a k => a.set k ((thalfList df ((k : Int) + 1)).headD 0)) acc)
  | [], acc, _ => rfl
  | k :: t, acc, h => by
    have hk := h k (List.mem_cons_self k t)
    rw [List.map_cons, List.foldlM_cons, thalfStep_nat df L k acc hk.2 hk.1]
    rw [List.foldl_cons]
    exact foldlM_thalf df L t _ (fun j hj => h j (List.mem_cons_of_mem k hj))

lemma foldlM_thalf_none (df : DF) (L : Nat) :
    ∀ (names : List Int) (acc : List ℚ),
      (∃ s ∈ names, (thalfList df s).length ≠ 1) →
      names.foldlM (thalfStep df L) acc = none
  | [], _, h => by simp at h
  | s :: t, acc, h => by
    rw [List.foldlM_cons]
    cases hstep : thalfStep df L acc s with
    | none => rfl
    | some acc2 =>
      have hlen := thalfStep_some_len df L acc s acc2 hstep
      rcases h with ⟨u, hu, hne⟩
      rcases List.mem_cons.mp hu with rfl | hu2
      · exact absurd hlen hne
      · exact foldlM_thalf_none df L t acc2 ⟨u, hu2, hne⟩

lemma foldl_set_length (tv : Nat → ℚ) :
    ∀ (ks : List Nat) (acc : List ℚ),
      (ks.foldl (fun a k => a.set k (tv k)) acc).length = acc.length
  | [], _ => rfl
  | k :: t, acc => by
    rw [List.foldl_cons, foldl_set_length tv t, List.length_set]

lemma getD_set_self (l : List ℚ) (i : Nat) (a : ℚ) (h : i < l.length) :
    (l.set i a).getD i 0 = a := by
  rw [List.getD_eq_getElem?_getD, List.getElem?_set_self h, Option.getD_some]

lemma getD_set_ne (l : List ℚ) (i j : Nat) (a : ℚ) (h : i ≠ j) :
    (l.set i a).getD j 0 = l.getD j 0 := by
  rw [List.getD_eq_getElem?_getD, List.getElem?_set_ne h,
    ← List.getD_eq_getElem?_getD]

lemma getD_out_of_range (l : List ℚ) (j : Nat) (h : ¬ j < l.length) :
    l.getD j 0 = 0 := by
  rw [List.getD_eq_getElem?_getD, List.getElem?_eq_none (by omega), Option.getD_none]

lemma foldl_set_getD (tv : Nat → ℚ) :
    ∀ (ks : List Nat) (acc : List ℚ) (j : Nat),
      (ks.foldl (fun a k => a.set k (tv k)) acc).getD j 0 =
        if j ∈ ks ∧ j < acc.length then tv j else acc.getD j 0
  | [], acc, j => by simp
  | k :: t, acc, j => by
    rw [List.foldl_cons, foldl_set_getD tv t, List.length_set]
    by_cases hlen : j < acc.length
    · by_cases hjt : j ∈ t
      · rw [if_pos ⟨hjt, hlen⟩, if_pos ⟨List.mem_cons_of_mem k hjt, hlen⟩]
      · rw [if_neg (fun h => hjt h.1)]
        by_cases hjk : j = k
        · subst hjk
          rw [getD_set_self acc j (tv j) hlen,
            if_pos ⟨List.mem_cons_self j t, hlen⟩]
        · rw [getD_set_ne acc k j _ (fun h => hjk h.symm), if_neg ?hne]
          case hne =>
            rintro ⟨hmem, -⟩
            rcases List.mem_cons.mp hmem with rfl | hmt
            · exact hjk rfl
            · exact hjt hmt
    · rw [if_neg (fun h => hlen h.2), if_neg (fun h => hlen h.2)]
      by_cases hjk : j = k
      · subst hjk
        rw [getD_out_of_range _ j (by rw [List.length_set]; exact hlen),
          getD_out_of_range acc j hlen]
      · rw [getD_set_ne acc k j _ (fun h => hjk h.symm)]

lemma foldl_set_range (tv : Nat → ℚ) (L : Nat) :
    (List.range L).foldl (fun a k => a.set k (tv k)) (List.replicate L 0) =
      (List.range L).map tv := by
  apply List.ext_getElem
  · rw [foldl_set_length, List.length_replicate, List.length_map, List.length_range]
  · intro j h1 h2
    have hj : j < L := by
      rwa [foldl_set_length, List.length_replicate] at h1
    rw [← List.getD_eq_getElem _ 0 h1, ← List.getD_eq_getElem _ 0 h2,
      foldl_set_getD, if_pos ⟨List.mem_range.mpr hj, by simpa using hj⟩,
      List.getD_eq_getElem _ 0 h2]
    rw [List.getElem_map, List.getElem_range]

lemma computeIThalf_eq (df : DF) (L : Nat)
    (hnames : sweepNames df = (List.range L).map (fun k : Nat => (k : Int) + 1))
    (hone : ∀ s ∈ sweepNames df, (thalfList df s).length = 1) :
    computeIThalf df L =
      some ((List.range L).map (fun k : Nat =>
        (thalfList df ((k : Int) + 1)).headD 0)) := by
  rw [computeIThalf, hnames]
  rw [foldlM_thalf df L (List.range L) (List.replicate L 0) ?hcond]
  case hcond =>
    intro k hk
    refine ⟨List.mem_range.mp hk, hone _ ?_⟩
    rw [hnames]
    exact List.mem_map_of_mem _ hk
  rw [foldl_set_range]

lemma computeIThalf_none (df : DF) (L : Nat)
    (h : ∃ s ∈ sweepNames df, (thalfList df s).length ≠ 1) :
    computeIThalf df L = none :=
  foldlM_thalf_none df L (sweepNames df) (List.replicate L 0) h

lemma map_enum_snd {α β : Type} (g : α → β) (l : List α) :
    l.enum.map (fun ks => g ks.2) = l.map g := by
  rw [show (fun ks : Nat × α => g ks.2) = g ∘ Prod.snd from rfl, ← List.map_map,
    List.enum_map_snd]

/-! ### Claim C10: the `i_thalf` computation -/

/-- C10 (amended): `i_thalf` is computed from the full per-sweep trace —
`thalfList` selects the rows with `ti` exactly 250.0 from `df`, not from the
windowed subset — and, provided every sweep has exactly one sample at
`ti == 250.0` AND the sweeps are named `1 .. L` where `L` is the number of
sweeps appearing in the window (so that every numpy write index `i-1` is in
range; the claim's "succeeds for every input" fails without this), the loop
succeeds and stores that sample's current at position `sweep - 1`; with zero
or multiple such samples the scalar assignment fails. -/
theorem sweep_summary_thalf (df : DF) (w0 w1 : ℚ) (L : Nat)
    (hL : L = (sweepNames (queryWindow df w0 w1)).length)
    (hnames : sweepNames df = (List.range L).map (fun k : Nat => (k : Int) + 1)) :
    ((∀ s ∈ sweepNames df, (thalfList df s).length = 1) →
      computeIThalf df L =
        some ((List.range L).map (fun k : Nat =>
          (thalfList df ((k : Int) + 1)).headD 0))) ∧
    ((∃ s ∈ sweepNames df, (thalfList df s).length ≠ 1) →
      computeIThalf df L = none ∧
        ∀ (param : String) (sqrtFn : ℚ → ℚ),
          sweep_summary df w0 w1 param sqrtFn = none) := by
  constructor
  · exact computeIThalf_eq df L hnames
  · intro h
    have hnone := computeIThalf_none df L h
    refine ⟨hnone, ?_⟩
    intro param sqrtFn
    rw [sweep_summary, ← hL, hnone]

/-- A dataframe whose single sweep has exactly one sample at `ti = 250`, lying
outside the window `[0, 1)`. -/
def dfMissed : DF := [⟨250, 5, 0, 1⟩]

/-- Counterexample to C10 as stated: in `dfMissed` every sweep has exactly one
sample at `ti == 250.0`, yet with window `[0, 1)` the windowed subset has no
sweeps, `i_thalf = np.zeros(0)`, and the write `i_thalf[0]` raises an
`IndexError` — the computation does not "succeed for every input" under the
claim's precondition alone. -/
theorem sweep_summary_thalf_cex :
    (∀ s ∈ sweepNames dfMissed, (thalfList dfMissed s).length = 1) ∧
      computeIThalf dfMissed (sweepNames (queryWindow dfMissed 0 1)).length = none ∧
      sweep_summary dfMissed 0 1 "Min" (fun x => x) = none := by
  refine ⟨by decide, by decide, by decide⟩

/-- Witness for C10: a dataframe with one sweep, one windowed row and one
`ti = 250` row per sweep. -/
def dfNeg : DF := [⟨0, 1, -5, 1⟩, ⟨250, 2, -5, 1⟩]

/-- Witness for C10 at `dfNeg`. -/
theorem sweep_summary_thalf_witness :
    1 = (sweepNames (queryWindow dfNeg 0 1)).length ∧
      sweepNames dfNeg = (List.range 1).map (fun k : Nat => (k : Int) + 1) ∧
      ((∀ s ∈ sweepNames dfNeg, (thalfList dfNeg s).length = 1) →
        computeIThalf dfNeg 1 =
          some ((List.range 1).map (fun k : Nat =>
            (thalfList dfNeg ((k : Int) + 1)).headD 0))) ∧
      ((∃ s ∈ sweepNames dfNeg, (thalfList dfNeg s).length ≠ 1) →
        computeIThalf dfNeg 1 = none ∧
          ∀ (param : String) (sqrtFn : ℚ → ℚ),
            sweep_summary dfNeg 0 1 param sqrtFn = none) :=
  ⟨by decide, by decide,
    (sweep_summary_thalf dfNeg 0 1 1 (by decide) (by decide)).1,
    (sweep_summary_thalf dfNeg 0 1 1 (by decide) (by decide)).2⟩

/-! ### Claim C9: the `param` dispatch of `sweep_summary` -/

lemma npMax_isSome {l : List ℚ} (h : l ≠ []) : ∃ m, npMax l = some m := by
  cases l with
  | nil => exact absurd rfl h
  | cons x xs => exact ⟨xs.foldl max x, rfl⟩

lemma maxBranch_some {subset : DF} (h : subset ≠ []) :
    ∃ rows, maxBranch subset = some (Summary.maxS rows) := by
  have hns : sweepNames subset ≠ [] := sweepNames_ne_nil h
  have hmap : (sweepNames subset).map
      (fun s => seriesMax ((groupRows subset s).map (·.i))) ≠ [] := by
    intro hc
    exact hns (List.map_eq_nil_iff.mp hc)
  obtain ⟨m, hm⟩ := npMax_isSome hmap
  refine ⟨(sweepNames subset).map (fun s =>
    { sweep := s
      pressure := |median ((groupRows subset s).map (·.p))|
      max_i := seriesMax ((groupRows subset s).map (·.i))
      max_norm_i := seriesMax ((groupRows subset s).map (·.i)) / m }), ?_⟩
  simp only [maxBranch]
  rw [hm]

/-- C9 (amended): provided the pre-dispatch `i_thalf` loop succeeds (it runs
before the `param` test, lines 234-236, so its failure raises for every
`param`) and the windowed subset is non-empty (so `np.max(iMax)` does not
raise), `sweep_summary` returns Python `None` when `param` is the string
`'None'`, and for every `param` other than `'None'`, `'Mean'` and `'Min'` —
including misspellings — it silently takes the `'Max'` branch and returns the
same max-based summary, rather than raising an error. -/
theorem sweep_summary_dispatch (df : DF) (w0 w1 : ℚ) (sqrtFn : ℚ → ℚ)
    (param : String) (th : List ℚ)
    (hth : computeIThalf df (sweepNames (queryWindow df w0 w1)).length = some th)
    (hsub : queryWindow df w0 w1 ≠ []) :
    sweep_summary df w0 w1 "None" sqrtFn = some none ∧
      (param ≠ "None" → param ≠ "Mean" → param ≠ "Min" →
        sweep_summary df w0 w1 param sqrtFn = sweep_summary df w0 w1 "Max" sqrtFn ∧
          ∃ rows, sweep_summary df w0 w1 param sqrtFn =
            some (some (Summary.maxS rows))) := by
  constructor
  · rw [sweep_summary, hth]
    simp
  · intro h1 h2 h3
    obtain ⟨rows, hrows⟩ := maxBranch_some hsub
    constructor
    · rw [sweep_summary, hth, sweep_summary, hth]
      simp only [if_neg h1, if_neg h2, if_neg h3]
      simp
    · refine ⟨rows, ?_⟩
      rw [sweep_summary, hth]
      simp only [if_neg h1, if_neg h2, if_neg h3, hrows, Option.map_some']

/-- A dataframe with no sample at `ti = 250`, so the `i_thalf` loop raises. -/
def dfNoThalf : DF := [⟨0, 1, 0, 1⟩]

/-- Counterexample to C9 as stated: the `i_thalf` loop runs before the
`param` dispatch, so on a dataframe with no `ti == 250.0` sample
`sweep_summary` raises (modelled by `none`) instead of returning `None` for
`param = 'None'` or a max-based summary for the misspelt `param = 'Maximum'`. -/
theorem sweep_summary_dispatch_cex :
    sweep_summary dfNoThalf 0 1 "None" (fun x => x) ≠ some none ∧
      sweep_summary dfNoThalf 0 1 "None" (fun x => x) = none ∧
      sweep_summary dfNoThalf 0 1 "Maximum" (fun x => x) = none := by
  refine ⟨by decide, by decide, by decide⟩

/-- Witness for C9 at `dfNeg` with the misspelt `param = 'Maximum'`. -/
theorem sweep_summary_dispatch_witness :
    (∃ th, computeIThalf dfNeg (sweepNames (queryWindow dfNeg 0 1)).length =
        some th) ∧
      queryWindow dfNeg 0 1 ≠ [] ∧
      (sweep_summary dfNeg 0 1 "None" (fun x => x) = some none ∧
        ("Maximum" ≠ "None" → "Maximum" ≠ "Mean" → "Maximum" ≠ "Min" →
          sweep_summary dfNeg 0 1 "Maximum" (fun x => x) =
              sweep_summary dfNeg 0 1 "Max" (fun x => x) ∧
            ∃ rows, sweep_summary dfNeg 0 1 "Maximum" (fun x => x) =
              some (some (Summary.maxS rows)))) :=
  ⟨⟨[2], by decide⟩, by decide,
    sweep_summary_dispatch dfNeg 0 1 (fun x => x) "Maximum" [2] (by decide)
      (by decide)⟩

/-! ### Claim C2: the `pressure` column of `sweep_summary` -/

lemma summaryPressures_maxBranch (subset : DF) (S : Summary)
    (h : maxBranch subset = some S) :
    summaryPressures S = (sweepNames subset).map (fun s =>
      |median ((groupRows subset s).map (·.p))|) := by
  simp only [maxBranch] at h
  cases hm : npMax ((sweepNames subset).map (fun s =>
      seriesMax ((groupRows subset s).map (·.i)))) with
  | none => rw [hm] at h; simp at h
  | some m =>
    rw [hm] at h
    rw [Option.some_inj] at h
    subst h
    simp [summaryPressures, List.map_map, Function.comp]

lemma summaryPressures_minBranch (subset : DF) (thalf : List ℚ) (S : Summary)
    (h : minBranch subset thalf = some S) :
    summaryPressures S = (sweepNames subset).map (fun s =>
      |median ((groupRows subset s).map (·.p))|) := by
  simp only [minBranch] at h
  cases hm : npMin ((sweepNames subset).map (fun s =>
      seriesMin ((groupRows subset s).map (·.i)))) with
  | none => rw [hm] at h; simp at h
  | some m =>
    rw [hm] at h
    rw [Option.some_inj] at h
    subst h
    simp only [summaryPressures, List.map_map]
    rw [← map_enum_snd (fun s : Int =>
      |median ((groupRows subset s).map (·.p))|) (sweepNames subset)]
    exact List.map_congr_left (fun ks _ => rfl)

lemma summaryPressures_meanBranch (subset : DF) (sqrtFn : ℚ → ℚ) (S : Summary)
    (h : meanBranch subset sqrtFn = some S) :
    summaryPressures S = (sweepNames subset).map (fun s =>
      |median ((groupRows subset s).map (·.p))|) := by
  simp only [meanBranch] at h
  cases hm : npMax ((sweepNames subset).map (fun s =>
      |mean ((groupRows subset s).map (·.i))|)) with
  | none => rw [hm] at h; simp at h
  | some m =>
    rw [hm] at h
    rw [Option.some_inj] at h
    subst h
    simp [summaryPressures, List.map_map, Function.comp]

/-- C2 (amended): for `param` in `{'Max', 'Min', 'Mean'}`, the `pressure`
column of the summary dataframe returned by `sweep_summary` holds, for each
sweep of the windowed subset, the ABSOLUTE VALUE of the median of `p` over
that sweep's windowed rows (`np.abs(groups['p'].median())`) — not the median
itself, which the claim asserts. -/
theorem sweep_summary_pressure (df : DF) (w0 w1 : ℚ) (param : String)
    (sqrtFn : ℚ → ℚ) (S : Summary)
    (hparam : param = "Max" ∨ param = "Min" ∨ param = "Mean")
    (hS : sweep_summary df w0 w1 param sqrtFn = some (some S)) :
    summaryPressures S = (sweepNames (queryWindow df w0 w1)).map (fun s =>
      |median ((groupRows (queryWindow df w0 w1) s).map (·.p))|) := by
  rw [sweep_summary] at hS
  cases hth : computeIThalf df (sweepNames (queryWindow df w0 w1)).length with
  | none => rw [hth] at hS; simp at hS
  | some th =>
    rw [hth] at hS
    rcases hparam with rfl | rfl | rfl
    · simp at hS
      exact summaryPressures_maxBranch _ _ hS
    · simp at hS
      exact summaryPressures_minBranch _ _ _ hS
    · simp at hS
      exact summaryPressures_meanBranch _ _ _ hS

/-- Concrete evaluation shared by the C2 counterexample and witness: on
`dfNeg` (whose one windowed row has `p = -5`) the max-branch summary pairs the
sweep with pressure `5 = |-5|`. -/
lemma sweep_summary_dfNeg_max :
    sweep_summary dfNeg 0 1 "Max" (fun x => x) =
      some (some (Summary.maxS
        [{ sweep := 1, pressure := 5, max_i := 1, max_norm_i := 1 }])) := by
  have h1 : computeIThalf dfNeg (sweepNames (queryWindow dfNeg 0 1)).length =
      some [2] := by decide
  rw [sweep_summary, h1]
  norm_num [maxBranch, npMax, sweepNames, queryWindow, groupRows, seriesMax,
    median, sortRats, List.insertionSort, List.orderedInsert, dfNeg]
  decide

/-- Counterexample to C2 as stated: on `dfNeg` the sweep's median stimulus
over the windowed rows is `-5`, but the `pressure` entry of the returned
summary is `5` (the code takes `np.abs` of the median), so the pressure entry
does not equal the median. -/
theorem sweep_summary_pressure_cex :
    sweep_summary dfNeg 0 1 "Max" (fun x => x) =
      some (some (Summary.maxS
        [{ sweep := 1, pressure := 5, max_i := 1, max_norm_i := 1 }])) ∧
      median ((groupRows (queryWindow dfNeg 0 1) 1).map (·.p)) = -5 ∧
      ((5 : ℚ) ≠ -5) := by
  refine ⟨sweep_summary_dfNeg_max, ?_, by norm_num⟩
  have hgr : (groupRows (queryWindow dfNeg 0 1) 1).map (·.p) = [-5] := by decide
  rw [hgr]
  norm_num [median, sortRats, List.insertionSort, List.orderedInsert]

/-- Witness for C2 at `dfNeg`, `param = 'Max'`. -/
theorem sweep_summary_pressure_witness :
    ("Max" = "Max" ∨ "Max" = "Min" ∨ "Max" = "Mean") ∧
      summaryPressures (Summary.maxS
          [{ sweep := 1, pressure := 5, max_i := 1, max_norm_i := 1 }]) =
        (sweepNames (queryWindow dfNeg 0 1)).map (fun s =>
          |median ((groupRows (queryWindow dfNeg 0 1) s).map (·.p))|) :=
  ⟨Or.inl rfl,
    sweep_summary_pressure dfNeg 0 1 "Max" (fun x => x) _ (Or.inl rfl)
      sweep_summary_dfNeg_max⟩

/-! ### Lemmas for `baseline_subtract` -/

lemma flatMap_congr {α β : Type} {l : List α} {f g : α → List β}
    (h : ∀ a ∈ l, f a = g a) : l.flatMap f = l.flatMap g := by
  induction l with
  | nil => rfl
  | cons a t ih =>
    rw [List.flatMap_cons, List.flatMap_cons, h a (List.mem_cons_self a t),
      ih (fun b hb => h b (List.mem_cons_of_mem a hb))]

lemma flatMap_map {α β γ : Type} (g : β → γ) (G : α → List β) :
    ∀ l : List α, l.flatMap (fun a => (G a).map g) = (l.flatMap G).map g := by
  intro l
  induction l with
  | nil => rfl
  | cons a t ih => rw [List.flatMap_cons, List.flatMap_cons, List.map_append, ih]

lemma zipWith_upd_map (g : Row → ℚ) :
    ∀ df : DF, List.zipWith (fun r v => { r with i := v }) df (df.map g) =
      df.map (fun r => { r with i := g r })
  | [] => rfl
  | r :: d => by
    rw [List.map_cons, List.zipWith_cons_cons, zipWith_upd_map g d, List.map_cons]

lemma mapM_some {α β : Type} (f : α → Option β) (g : α → β) :
    ∀ l : List α, (∀ a ∈ l, f a = some (g a)) → l.mapM f = some (l.map g)
  | [], _ => rfl
  | a :: t, h => by
    rw [List.mapM_cons, h a (List.mem_cons_self a t),
      mapM_some f g t (fun b hb => h b (List.mem_cons_of_mem a hb))]
    rfl

/-- For a dataframe whose `sweep` column is non-decreasing, concatenating the
`groupby('sweep')` groups in ascending key order restores the dataframe. -/
lemma flatMap_filter_sorted (names : List Int) :
    ∀ df : DF, names.Pairwise (· < ·) →
      (df.map (·.sweep)).Pairwise (· ≤ ·) →
      (∀ r ∈ df, r.sweep ∈ names) →
      names.flatMap (fun s => df.filter (fun r => decide (r.sweep = s))) = df := by
  induction names with
  | nil =>
    intro df _ _ hsub
    cases df with
    | nil => simp
    | cons r t => exact absurd (hsub r (List.mem_cons_self r t)) (List.not_mem_nil _)
  | cons s ns ih =>
    intro df hnames
    induction df with
    | nil => intro _ _; simp
    | cons r d ihd =>
      intro hsort hsub
      have hsort2 : (d.map (·.sweep)).Pairwise (· ≤ ·) := by
        rw [List.map_cons] at hsort
        exact (List.pairwise_cons.mp hsort).2
      have hle : ∀ x ∈ d, r.sweep ≤ x.sweep := by
        intro x hx
        rw [List.map_cons] at hsort
        exact (List.pairwise_cons.mp hsort).1 _ (List.mem_map_of_mem _ hx)
      by_cases hrs : r.sweep = s
      · have hnotns : ∀ t ∈ ns, ¬(r.sweep = t) := by
          intro t ht heq
          have hlt := (List.pairwise_cons.mp hnames).1 t ht
          rw [hrs] at heq
          omega
        rw [List.flatMap_cons, List.filter_cons_of_pos (by simp [hrs])]
        have hstep : ns.flatMap
            (fun t => (r :: d).filter (fun x => decide (x.sweep = t))) =
            ns.flatMap (fun t => d.filter (fun x => decide (x.sweep = t))) := by
          apply flatMap_congr
          intro t ht
          rw [List.filter_cons_of_neg (by simp [hnotns t ht])]
        rw [hstep, List.cons_append]
        have hrest := ihd hsort2 (fun x hx => hsub x (List.mem_cons_of_mem r hx))
        rw [List.flatMap_cons] at hrest
        rw [hrest]
      · have hrns : r.sweep ∈ ns := by
          rcases List.mem_cons.mp (hsub r (List.mem_cons_self r d)) with h | h
          · exact absurd h hrs
          · exact h
        have hslt : s < r.sweep := (List.pairwise_cons.mp hnames).1 _ hrns
        have hnos : ∀ x ∈ r :: d, ¬(x.sweep = s) := by
          intro x hx heq
          rcases List.mem_cons.mp hx with rfl | hxd
          · exact hrs heq
          · have := hle x hxd
            omega
        rw [List.flatMap_cons,
          List.filter_eq_nil_iff.mpr (by intro a ha; simpa using hnos a ha),
          List.nil_append]
        apply ih (r :: d) (List.pairwise_cons.mp hnames).2 hsort
        intro x hx
        rcases List.mem_cons.mp (hsub x hx) with h | h
        · exact absurd h (hnos x hx)
        · exact h

/-! ### Claim C1: `baseline_subtract` row-wise correctness -/

/-- C1 (amended): for every window and every dataframe in which every sweep
has at least one row inside the window AND whose `sweep` column is
non-decreasing along the rows (rows grouped by sweep in ascending order, as
`load_file` produces — the positional assignment `df['i'] = flatList` pairs
the concatenated groupby output with the rows by position, so an unsorted
dataframe receives the wrong values), `baseline_subtract` returns the
dataframe in which every row's `i` equals its original `i` minus the mean of
the original `i` over the windowed rows of the same sweep. -/
theorem baseline_subtract_rows (df : DF) (w0 w1 : ℚ)
    (hsort : (df.map (·.sweep)).Pairwise (· ≤ ·))
    (hcov : ∀ s ∈ sweepNames df,
      (queryWindow df w0 w1).filter (fun r => decide (r.sweep = s)) ≠ []) :
    baseline_subtract df w0 w1 = some (df.map (fun r =>
      { r with i := r.i - mean (((queryWindow df w0 w1).filter
          (fun x => decide (x.sweep = r.sweep))).map (·.i)) })) := by
  have hmapM : (sweepNames df).mapM (fun s =>
      let wg := (queryWindow df w0 w1).filter (fun r => decide (r.sweep = s))
      if wg.isEmpty then none
      else some ((groupRows df s).map (fun r => r.i - mean (wg.map (·.i))))) =
      some ((sweepNames df).map (fun s =>
        (groupRows df s).map (fun r => r.i - mean (((queryWindow df w0 w1).filter
          (fun x => decide (x.sweep = s))).map (·.i))))) := by
    apply mapM_some
    intro s hs
    have hne : ((queryWindow df w0 w1).filter
        (fun r => decide (r.sweep = s))).isEmpty = false := by
      rcases hq : (queryWindow df w0 w1).filter (fun r => decide (r.sweep = s)) with
        - | ⟨a, t⟩
      · exact absurd hq (hcov s hs)
      · rw [hq]
        rfl
    simp only [hne, Bool.false_eq_true, if_false]
  unfold baseline_subtract
  rw [hmapM]
  refine congrArg some ?_
  have hflat : (((sweepNames df).map (fun s =>
      (groupRows df s).map (fun r => r.i - mean (((queryWindow df w0 w1).filter
        (fun x => decide (x.sweep = s))).map (·.i))))).flatten) =
      df.map (fun r => r.i - mean (((queryWindow df w0 w1).filter
        (fun x => decide (x.sweep = r.sweep))).map (·.i))) := by
    rw [← List.flatMap_def]
    have hcongr : (sweepNames df).flatMap (fun s =>
        (groupRows df s).map (fun r => r.i - mean (((queryWindow df w0 w1).filter
          (fun x => decide (x.sweep = s))).map (·.i)))) =
        (sweepNames df).flatMap (fun s =>
          (groupRows df s).map (fun r => r.i - mean (((queryWindow df w0 w1).filter
            (fun x => decide (x.sweep = r.sweep))).map (·.i)))) := by
      apply flatMap_congr
      intro s hs
      apply List.map_congr_left
      intro r hr
      have : r.sweep = s := of_decide_eq_true (List.mem_filter.mp hr).2
      rw [this]
    have hgrp : (sweepNames df).flatMap (fun s => groupRows df s) = df := by
      simp only [groupRows]
      exact flatMap_filter_sorted (sweepNames df) df
        (sweepNames_pairwise_lt df) hsort (fun r hr => mem_sweepNames hr)
    rw [hcongr, flatMap_map, hgrp]
  rw [hflat, zipWith_upd_map]

/-- A sweep-sorted dataframe for the C1 witness. -/
def dfSorted : DF := [⟨0, 10, 0, 1⟩, ⟨0, 5, 0, 2⟩, ⟨5, 7, 0, 2⟩]

/-- Witness for C1 at `dfSorted` with window `[0, 1)`. -/
theorem baseline_subtract_rows_witness :
    (dfSorted.map (·.sweep)).Pairwise (· ≤ ·) ∧
      (∀ s ∈ sweepNames dfSorted,
        (queryWindow dfSorted 0 1).filter (fun r => decide (r.sweep = s)) ≠ []) ∧
      baseline_subtract dfSorted 0 1 = some (dfSorted.map (fun r =>
        { r with i := r.i - mean (((queryWindow dfSorted 0 1).filter
            (fun x => decide (x.sweep = r.sweep))).map (·.i)) })) :=
  ⟨by decide, by decide, baseline_subtract_rows dfSorted 0 1 (by decide) (by decide)⟩

/-- The same rows as `dfSorted` but with the sweeps out of order. -/
def dfUnsorted : DF := [⟨0, 5, 0, 2⟩, ⟨5, 7, 0, 2⟩, ⟨0, 10, 0, 1⟩]

/-- Counterexample to C1 as stated: on the unsorted `dfUnsorted` (sweep 2
rows before the sweep 1 row; every sweep has a windowed row), the row
`⟨5, 7, 0, 2⟩` should receive `7 - 5 = 2`, but the positional assignment gives
its position the value `0` (sweep 1's subtracted trace lands on a sweep 2
row), so the claim's per-row equation fails at row index 1. -/
theorem baseline_subtract_rows_cex :
    baseline_subtract dfUnsorted 0 1 =
      some [⟨0, 0, 0, 2⟩, ⟨5, 0, 0, 2⟩, ⟨0, 2, 0, 1⟩] ∧
      (dfUnsorted.getD 1 ⟨0, 0, 0, 0⟩).i -
        mean (((queryWindow dfUnsorted 0 1).filter (fun x =>
          decide (x.sweep = (dfUnsorted.getD 1 ⟨0, 0, 0, 0⟩).sweep))).map (·.i)) = 2 ∧
      (([⟨0, 0, 0, 2⟩, ⟨5, 0, 0, 2⟩, ⟨0, 2, 0, 1⟩] : DF).getD 1 ⟨0, 0, 0, 0⟩).i = 0 ∧
      ((0 : ℚ) ≠ 2) := by
  refine ⟨?_, ?_, by decide, by norm_num⟩
  · norm_num [baseline_subtract, sweepNames, queryWindow, groupRows, mean,
      dfUnsorted, List.insertionSort, List.orderedInsert, List.dedup_cons_of_mem,
      List.dedup_cons_of_not_mem, List.mapM, List.mapM.loop, List.isEmpty]
  · have hf : ((queryWindow dfUnsorted 0 1).filter (fun x =>
        decide (x.sweep = (dfUnsorted.getD 1 ⟨0, 0, 0, 0⟩).sweep))).map (·.i) =
        [5] := by decide
    rw [hf]
    norm_num [mean, dfUnsorted]

/-! ### Claim C3: statelessness of the numeric core -/

/-- C3 (amended): `load_file`, `sweep_summary`, `sigmoid_fit` and
`ngauss_guesses` leave their inputs unchanged, but `baseline_subtract` writes
the baseline-subtracted values into the `i` column of its input in place:
after a successful call the caller's dataframe equals the returned
(modified) dataframe rather than the original. -/
theorem numeric_core_frame :
    (∀ (df : DF) (w0 w1 : ℚ) (param : String) (sqrtFn : ℚ → ℚ),
        sweepSummaryInputAfter df w0 w1 param sqrtFn = df) ∧
      (∀ (x y : List ℚ) (n : Nat), ngaussInputAfter x y n = (x, y)) ∧
      (∀ (p p50 k : ℝ), sigmoidInputAfter p p50 k = p) ∧
      (∀ (rawFile : List String) (pf : String → Option ℚ),
        loadFileInputAfter rawFile pf = rawFile) ∧
      (∀ (df : DF) (w0 w1 : ℚ) (out : DF),
        baseline_subtract df w0 w1 = some out →
          baselineSubtractInputAfter df w0 w1 = out) :=
  ⟨fun _ _ _ _ _ => rfl, fun _ _ _ => rfl, fun _ _ _ => rfl, fun _ _ => rfl,
    fun df w0 w1 out h => by rw [baselineSubtractInputAfter, h]; rfl⟩

/-- A tiny dataframe on which `baseline_subtract` succeeds and visibly
modifies the `i` column. -/
def dfTiny : DF := [⟨0, 5, 0, 1⟩, ⟨1, 7, 0, 1⟩]

/-- Concrete evaluation shared by the C3 witness and counterexample. -/
lemma baseline_subtract_dfTiny :
    baseline_subtract dfTiny 0 1 = some [⟨0, 0, 0, 1⟩, ⟨1, 2, 0, 1⟩] := by
  norm_num [baseline_subtract, sweepNames, queryWindow, groupRows, mean,
    dfTiny, List.insertionSort, List.orderedInsert, List.mapM, List.mapM.loop,
    List.isEmpty]

/-- Witness for C3: the `baseline_subtract` conjunct applied at `dfTiny`. -/
theorem numeric_core_frame_witness :
    baseline_subtract dfTiny 0 1 = some [⟨0, 0, 0, 1⟩, ⟨1, 2, 0, 1⟩] ∧
      baselineSubtractInputAfter dfTiny 0 1 = [⟨0, 0, 0, 1⟩, ⟨1, 2, 0, 1⟩] :=
  ⟨baseline_subtract_dfTiny,
    numeric_core_frame.2.2.2.2 dfTiny 0 1 _ baseline_subtract_dfTiny⟩

/-- Counterexample to C3 as stated: after calling `baseline_subtract` on
`dfTiny` the caller's dataframe no longer equals the original — the `i`
column was modified in place. -/
theorem numeric_core_frame_cex :
    baselineSubtractInputAfter dfTiny 0 1 ≠ dfTiny := by
  rw [baselineSubtractInputAfter, baseline_subtract_dfTiny]
  decide

end Pclamp

